import Mathlib

/-!
Verification development for the moneymanager expense-parsing backend.

Shallow embedding of the fan-out parsing orchestrator
(backend/app/agents/multi_expense_parser.py), the usage metering ledger
(backend/app/agents/usage_tracker.py), the read-side usage service
(backend/app/agents/usage_service.py) and the single-expense parser
(backend/app/agents/expense_parser.py).

External effects (Firestore reads/writes, the OpenAI delegation, tiktoken
encoders) are modelled as explicit environment records whose outcomes are
`Option`/`Except` values; Python `try/except` blocks become `match` on those
values.  Python floats are modelled as exact rationals; wall-clock durations
are not modelled.
-/

namespace MoneyManager

/-- Python whitespace class used by `str.strip` and by the regex class `\s`
(ASCII part): space, tab, newline, carriage return, vertical tab, form feed. -/
def pyws (c : Char) : Bool :=
  c = ' ' || c = '\t' || c = '\n' || c = '\r' || c = '\x0b' || c = '\x0c'

/-- Python `str.strip()` on a character list: drop whitespace from both ends. -/
def pyStrip (l : List Char) : List Char :=
  ((l.dropWhile pyws).reverse.dropWhile pyws).reverse

/-- Python `str.strip()` on strings. -/
def pyStripString (s : String) : String :=
  String.mk (pyStrip s.toList)

/-- Python `round(x)` to the nearest integer, ties to even (banker's rounding). -/
def bankersRound (x : ℚ) : ℤ :=
  let f := ⌊x⌋
  let r := x - (f : ℚ)
  if r < 1/2 then f
  else if 1/2 < r then f + 1
  else if f % 2 = 0 then f else f + 1

/-- Python `round(x, 6)`: round to 6 decimal places, ties to even. -/
def pyRound6 (x : ℚ) : ℚ :=
  (bankersRound (x * 1000000) : ℚ) / 1000000

/-! ## TokenMeter: usage_tracker.py, UsageTracker.get_encoder / count_tokens /
calculate_cost -/

/-- External tiktoken world: `getEncoding name` is the result of
`tiktoken.get_encoding(name)` — `none` models the call raising; an encoder
maps a text to its token count, `none` modelling `encoder.encode` raising. -/
structure TokenEnv where
  getEncoding : String → Option (String → Option Nat)

/-- `UsageTracker.get_encoder` (usage_tracker.py lines 26-42).  Every branch of
the source selects the encoding name "cl100k_base"; on failure the `except`
branch calls `tiktoken.get_encoding("cl100k_base")` once more and any second
failure propagates (modelled as `none`). -/
def get_encoder (env : TokenEnv) (model : String) : Option (String → Option Nat) :=
  -- the branches on `model` ("gpt-3.5" / "gpt-4") all assign "cl100k_base"
  match env.getEncoding "cl100k_base" with
  | some e => some e
  | none =>
    match env.getEncoding "cl100k_base" with
    | some e => some e
    | none => none

/-- `UsageTracker.count_tokens` (usage_tracker.py lines 44-55): empty text
counts 0; otherwise `len(encoder.encode(text))`, and on any failure the
fallback estimate `len(text) // 4`. -/
def count_tokens (env : TokenEnv) (text model : String) : Nat :=
  if text = "" then 0
  else
    match get_encoder env model with
    | some enc =>
      match enc text with
      | some n => n
      | none => text.length / 4
    | none => text.length / 4

/-- `UsageTracker.model_pricing` (usage_tracker.py lines 18-24): USD per 1M
tokens, (input rate, output rate). -/
def model_pricing : List (String × ℚ × ℚ) :=
  [("gpt-4o", (2.50, 10.00)),
   ("gpt-4o-mini", (0.150, 0.600)),
   ("gpt-4.1-nano", (0.1, 0.4)),
   ("gpt-4-turbo", (10.00, 30.00)),
   ("gpt-3.5-turbo", (0.50, 1.50))]

/-- `UsageTracker.calculate_cost` (usage_tracker.py lines 57-64): look the
model up in the pricing table, defaulting to rates (0.001, 0.002), and return
`input/1e6 * in_rate + output/1e6 * out_rate`.  The source returns this value
unrounded. -/
def calculate_cost (input_tokens output_tokens : Nat) (model : String) : ℚ :=
  let pricing := (List.lookup model model_pricing).getD (0.001, 0.002)
  (input_tokens : ℚ) / 1000000 * pricing.1 + (output_tokens : ℚ) / 1000000 * pricing.2

/-! ## TextSplitter fallback: multi_expense_parser.py, split_multi_expense_text
lines 112-113 (`text.replace(' and ', ', ').split(',')`, strip, drop empty) -/

/-- Python `text.replace(" and ", ", ")`: leftmost non-overlapping occurrences,
scanning continues after each replacement. -/
def replace_and : List Char → List Char
  | ' ' :: 'a' :: 'n' :: 'd' :: ' ' :: rest => ',' :: ' ' :: replace_and rest
  | c :: rest => c :: replace_and rest
  | [] => []

/-- Python `s.split(',')`: empty segments are kept, `"".split(',') == [""]`. -/
def split_on_comma : List Char → List (List Char)
  | [] => [[]]
  | ',' :: rest => [] :: split_on_comma rest
  | c :: rest =>
    match split_on_comma rest with
    | [] => [[c]]
    | g :: gs => (c :: g) :: gs

/-- The deterministic fallback of `split_multi_expense_text`
(multi_expense_parser.py lines 112-113):
`[part.strip() for part in text.replace(' and ', ', ').split(',') if part.strip()]`.
There is no step restoring the original text when no segment survives. -/
def split_multi_expense_fallback (text : String) : List String :=
  (((split_on_comma (replace_and text.toList)).map pyStrip).filter
    (fun l => l ≠ [])).map (fun l => String.mk l)

/-! ## UsageLedger: usage_tracker.py, UsageTracker.log_usage lines 104-197 -/

/-- One aggregation bucket (`{"requests": .., "tokens": .., "cost_usd": ..}`). -/
structure Bucket where
  requests : Nat
  tokens : Nat
  cost_usd : ℚ
deriving DecidableEq

/-- One monthly bucket, with nested per-agent / per-model sub-buckets. -/
structure MonthStats where
  requests : Nat
  tokens : Nat
  cost_usd : ℚ
  by_agent : List (String × Bucket)
  by_model : List (String × Bucket)
deriving DecidableEq

/-- The `request_data` record built by `log_usage` (lines 87-99); also the
unit of work merged into a ledger.  `month` is the UTC "YYYY-MM" key computed
at merge time (line 102). -/
structure UEvent where
  timestamp : String
  agent : String
  model : String
  month : String
  input_tokens : Nat
  output_tokens : Nat
  cost_usd : ℚ
deriving DecidableEq

/-- The per-user `ai_usage` document. -/
structure Ledger where
  total_requests : Nat
  total_tokens : Nat
  total_cost_usd : ℚ
  by_agent : List (String × Bucket)
  by_model : List (String × Bucket)
  monthly : List (String × MonthStats)
  recent_requests : List UEvent
deriving DecidableEq

/-- The zero ledger initialized when `"ai_usage"` is absent (lines 112-121). -/
def initLedger : Ledger :=
  { total_requests := 0, total_tokens := 0, total_cost_usd := 0
    by_agent := [], by_model := [], monthly := [], recent_requests := [] }

/-- The by_agent / by_model update of `log_usage`: create the bucket with zero
values if the key is absent (a Python dict inserts at the end), then add 1
request, `tok` tokens and (rounded) `c` cost to it. -/
def bumpAssoc (m : List (String × Bucket)) (k : String) (tok : Nat) (c : ℚ) :
    List (String × Bucket) :=
  match m with
  | [] => [(k, ⟨0 + 1, 0 + tok, pyRound6 (0 + c)⟩)]
  | (k0, b) :: rest =>
    if k0 = k then
      (k0, ⟨b.requests + 1, b.tokens + tok, pyRound6 (b.cost_usd + c)⟩) :: rest
    else
      (k0, b) :: bumpAssoc rest k tok c

/-- The monthly update of `log_usage` (lines 158-189): create the month entry
if absent, bump its totals and its nested by_agent / by_model buckets. -/
def bumpMonthly (m : List (String × MonthStats)) (month agent model : String)
    (tok : Nat) (c : ℚ) : List (String × MonthStats) :=
  match m with
  | [] =>
    [(month, ⟨0 + 1, 0 + tok, pyRound6 (0 + c),
              bumpAssoc [] agent tok c, bumpAssoc [] model tok c⟩)]
  | (k0, s) :: rest =>
    if k0 = month then
      (k0, ⟨s.requests + 1, s.tokens + tok, pyRound6 (s.cost_usd + c),
            bumpAssoc s.by_agent agent tok c, bumpAssoc s.by_model model tok c⟩) :: rest
    else
      (k0, s) :: bumpMonthly rest month agent model tok c

/-- The recent-requests update of `log_usage` (lines 191-194): append, then
keep only the last 100 entries when the cap is exceeded. -/
def capRecent (r : List UEvent) (e : UEvent) : List UEvent :=
  let r0 := r ++ [e]
  if 100 < r0.length then r0.drop (r0.length - 100) else r0

/-- The in-memory merge section of `UsageTracker.log_usage`
(usage_tracker.py lines 123-194): apply one usage event to the `ai_usage`
document.  `cost` is the raw (unrounded) cost used for the running sums;
`request_data` is the event record appended to `recent_requests`. -/
def log_usage_merge (usage : Ledger) (agent model month : String)
    (total_tokens : Nat) (cost : ℚ) (request_data : UEvent) : Ledger :=
  { total_requests := usage.total_requests + 1
    total_tokens := usage.total_tokens + total_tokens
    total_cost_usd := pyRound6 (usage.total_cost_usd + cost)
    by_agent := bumpAssoc usage.by_agent agent total_tokens cost
    by_model := bumpAssoc usage.by_model model total_tokens cost
    monthly := bumpMonthly usage.monthly month agent model total_tokens cost
    recent_requests := capRecent usage.recent_requests request_data }

/-- Merging one abstract usage event the way `log_usage` does: the token total
is `input + output` (line 81) and the event record itself is appended to
`recent_requests` (line 192). -/
def apply_event (usage : Ledger) (e : UEvent) : Ledger :=
  log_usage_merge usage e.agent e.model e.month
    (e.input_tokens + e.output_tokens) e.cost_usd e

/-! ## UsageAggregator entry point: usage_tracker.py, log_usage lines 66-203
(the whole body in `try`, every failure caught and discarded) -/

/-- Environment for one `log_usage` call: the tiktoken world plus whether the
Firestore read (`user_ref.get()`) or write (`user_ref.set(...)`) raises. -/
structure MeterEnv where
  token_env : TokenEnv
  get_fails : Bool
  set_fails : Bool

/-- The `try` body of `UsageTracker.log_usage` (lines 77-199): count tokens,
compute the cost, read the user document (`stored`, `none` when the user has
no `ai_usage` yet), merge, and persist.  A Firestore failure is an
`Except.error`. -/
def log_usage_body (env : MeterEnv) (stored : Option Ledger)
    (agent model input_text output_text timestamp month : String) :
    Except String Ledger :=
  let input_tokens := count_tokens env.token_env input_text model
  let output_tokens := count_tokens env.token_env output_text model
  let total_tokens := input_tokens + output_tokens
  let cost := calculate_cost input_tokens output_tokens model
  let request_data : UEvent :=
    ⟨timestamp, agent, model, month, input_tokens, output_tokens, pyRound6 cost⟩
  if env.get_fails then Except.error "firestore get failed"
  else
    let usage := stored.getD initLedger
    if env.set_fails then Except.error "firestore set failed"
    else Except.ok (log_usage_merge usage agent model month total_tokens cost request_data)

/-- `UsageTracker.log_usage` as seen by its caller (lines 66-203): the whole
body is wrapped in `try/except Exception`, so on any failure the stored
document is left as it was and no exception escapes — the function always
returns a plain value. -/
def log_usage (env : MeterEnv) (stored : Option Ledger)
    (agent model input_text output_text timestamp month : String) : Option Ledger :=
  match log_usage_body env stored agent model input_text output_text timestamp month with
  | Except.ok u => some u
  | Except.error _ => stored

/-! ## Expense records: expense_parser.py, parse_expense result dictionary -/

/-- The dictionary returned by `parse_expense` (expense_parser.py lines
157-187 on success, 195-205 on fallback). -/
structure ExpenseDict where
  amount : ℚ
  currency : String
  area_tags : List String
  context_tags : List String
  short_text : String
  main_tag_icon : String
  user_id : String
  raw_text : String
  timestamp : String
deriving DecidableEq

/-! ## ParseOrchestrator: multi_expense_parser.py, parse_multiple_expenses -/

/-- Outcome of one fragment's `parse_expense` unit of work as observed by the
orchestrator: `result r` models `future.result()` returning `r` (`none` a
falsy value), `exn` models `future.result()` raising. -/
inductive FragOutcome where
  | result : Option ExpenseDict → FragOutcome
  | exn : String → FragOutcome
deriving DecidableEq

/-- The result structure `MultiExpenseResult` (multi_expense_parser.py lines
19-25).  `processing_time` (wall clock) is not modelled. -/
structure MultiExpenseResult where
  expenses : List ExpenseDict
  total_count : Nat
  original_text : String
  error : String
deriving DecidableEq

/-- The `as_completed` collection loop (multi_expense_parser.py lines
163-177), over the fragments in completion order: a success needs a truthy
result dict with `amount > 0`; anything else appends an error string naming
the fragment. -/
def collectResults : List (String × FragOutcome) → List ExpenseDict × List String
  | [] => ([], [])
  | (t, o) :: rest =>
    let p := collectResults rest
    match o with
    | FragOutcome.result (some r) =>
      if 0 < r.amount then (r :: p.1, p.2)
      else (p.1, ("Failed to parse: " ++ t) :: p.2)
    | FragOutcome.result none =>
      (p.1, ("Failed to parse: " ++ t) :: p.2)
    | FragOutcome.exn m =>
      (p.1, ("Error parsing \x27" ++ t ++ "\x27: " ++ m) :: p.2)

/-- `parse_multiple_expenses` (multi_expense_parser.py lines 115-203) over the
fragments returned by the splitter, each paired with its parse outcome in
completion order.  `timeout_after = some k` models the 30-second batch
deadline elapsing after `k` fragment futures have completed: `as_completed`
then raises, the `except` branch discards everything collected so far and
returns the timeout result (lines 187-194).  A single fragment is parsed
directly (lines 129-149): its result is accepted when truthy, with no
positive-amount check. -/
def parse_multiple_expenses (frags : List (String × FragOutcome))
    (timeout_after : Option Nat) (text : String) : MultiExpenseResult :=
  match frags with
  | [(_, o)] =>
    match o with
    | FragOutcome.result (some r) => ⟨[r], 1, text, ""⟩
    | FragOutcome.result none => ⟨[], 0, text, "Failed to parse single expense"⟩
    | FragOutcome.exn m => ⟨[], 0, text, "Error: " ++ m⟩
  | _ =>
    match timeout_after with
    | some k =>
      if k < frags.length then ⟨[], 0, text, "Timeout while processing expenses"⟩
      else
        let p := collectResults frags
        ⟨p.1, p.1.length, text, String.intercalate "; " p.2⟩
    | none =>
      let p := collectResults frags
      ⟨p.1, p.1.length, text, String.intercalate "; " p.2⟩

/-! ## ExpenseCountClassifier: multi_expense_parser.py, detect_expense_count
(lines 205-217), embedding `re.findall` with the pattern
(?:euro-sign|pound-sign|dollar|yen-sign)?\d+(?:\.\d{2})?(?:\s*(?:euros?|dollars?|pounds?|yen|gbp|usd|eur|jpy))? -/

/-- The optional leading currency symbol class of the money regex. -/
def isCurrencySymbol (c : Char) : Bool :=
  c = '€' || c = '£' || c = '$' || c = '¥'

/-- `\d+`: requires one digit, consumes the maximal digit run. -/
def matchDigitsRun : List Char → Option (List Char)
  | c :: rest => if c.isDigit then some (rest.dropWhile Char.isDigit) else none
  | [] => none

/-- `(?:\.\d{2})?`: consume a dot followed by exactly two digits if present. -/
def matchFraction : List Char → List Char
  | '.' :: a :: b :: rest =>
    if a.isDigit && b.isDigit then rest else '.' :: a :: b :: rest
  | s => s

/-- Case-insensitive literal match: consume `pat` (given lowercase) from `s`. -/
def dropCaseless : List Char → List Char → Option (List Char)
  | [], s => some s
  | _ :: _, [] => none
  | p :: ps, c :: cs => if c.toLower = p then dropCaseless ps cs else none

/-- The currency-word alternation `euros?|dollars?|pounds?|yen|gbp|usd|eur|jpy`
in the engine's backtracking order (greedy `s?` first). -/
def currencyWords : List (List Char) :=
  ["euros".toList, "euro".toList, "dollars".toList, "dollar".toList,
   "pounds".toList, "pound".toList, "yen".toList, "gbp".toList,
   "usd".toList, "eur".toList, "jpy".toList]

/-- First alternative of the word alternation that matches at `s`. -/
def tryWords : List (List Char) → List Char → Option (List Char)
  | [], _ => none
  | w :: ws, s =>
    match dropCaseless w s with
    | some r => some r
    | none => tryWords ws s

/-- `(?:\s*(?:euros?|...))?`: skip whitespace then a currency word; if no word
follows, the whole optional group matches empty (the alternatives never start
with whitespace, so only the maximal whitespace run can precede a word). -/
def matchCurrencyWord (s : List Char) : List Char :=
  match tryWords currencyWords (s.dropWhile pyws) with
  | some r => r
  | none => s

/-- One attempted match of the money regex at the head of `s`: optional
currency symbol (kept only when digits follow, as the regex backtracks
otherwise), mandatory digit run, optional 2-decimal fraction, optional
currency word.  Returns the remainder after the match. -/
def tryMoneyMatch (s : List Char) : Option (List Char) :=
  match s with
  | [] => none
  | c :: rest =>
    if isCurrencySymbol c then
      match matchDigitsRun rest with
      | some r => some (matchCurrencyWord (matchFraction r))
      | none => none
    else
      match matchDigitsRun (c :: rest) with
      | some r => some (matchCurrencyWord (matchFraction r))
      | none => none

/-- `re.findall` counting: scan left to right, on a match continue after it,
otherwise advance one character.  Every match consumes at least one character,
so fuel equal to the length of the text suffices. -/
def countMoneyMatches : Nat → List Char → Nat
  | 0, _ => 0
  | _ + 1, [] => 0
  | fuel + 1, c :: rest =>
    match tryMoneyMatch (c :: rest) with
    | some r => 1 + countMoneyMatches fuel r
    | none => countMoneyMatches fuel rest

/-- Number of money-regex matches `re.findall` finds in `text`. -/
def money_matches_count (text : String) : Nat :=
  countMoneyMatches text.toList.length text.toList

/-- `detect_expense_count` (multi_expense_parser.py lines 205-217):
`'single'` when `re.findall` found no or one match, `'multiple'` otherwise. -/
def detect_expense_count (text : String) : String :=
  if money_matches_count text = 0 ∨ money_matches_count text ≤ 1 then "single"
  else "multiple"

/-! ## SingleExpenseParser: expense_parser.py, parse_expense lines 123-207 -/

/-- The `ExpenseData` fields produced by the LLM chain before post-processing
(expense_parser.py lines 14-21). -/
structure RawExpense where
  amount : ℚ
  currency : String
  area_tags : List String
  context_tags : List String
  short_text : String
deriving DecidableEq

/-- Environment of one `parse_expense` call: the Firestore user-currency read
(`Except.error` models the read raising, `none` a document without a
`currency` field), the API key, the combined LLM invocation and output
parsing (before the pydantic amount validator), the per-tag icon lookup, and
the rendering of the current UTC time. -/
structure ParserEnv where
  user_currency : Except String (Option String)
  api_key : Option String
  llm_parsed : Except String RawExpense
  tag_icon : String → Except String (Option String)
  now : String

/-- The fallback dictionary of `parse_expense` (expense_parser.py lines
195-205). -/
def expense_fallback (now text user_id : String) : ExpenseDict :=
  { amount := 0, currency := "EUR", area_tags := [], context_tags := []
    short_text := "generic purchase", main_tag_icon := "tag"
    user_id := user_id, raw_text := text, timestamp := now }

/-- The `try` body of `parse_expense` (expense_parser.py lines 137-187): read
the default currency, build the parser (raises without an API key), invoke the
chain and parse its output, validate the amount (the pydantic validator
rejects negative amounts), then assemble the result dictionary; the icon
lookup failure is absorbed by its own inner `try` (lines 171-184). -/
def parse_expense_body (env : ParserEnv) (text user_id : String) :
    Except String ExpenseDict := do
  let doc ← env.user_currency
  let _default_currency := doc.getD "EUR"
  match env.api_key with
  | none => Except.error "OPENAI_API_KEY environment variable not found"
  | some _ =>
    let raw ← env.llm_parsed
    if raw.amount < 0 then Except.error "Amount must be positive"
    else
      let icon :=
        match raw.area_tags with
        | [] => "tag"
        | t :: _ =>
          match env.tag_icon t.toLower with
          | Except.ok (some i) => i
          | Except.ok none => "tag"
          | Except.error _ => "tag"
      Except.ok
        { amount := raw.amount, currency := raw.currency
          area_tags := raw.area_tags, context_tags := raw.context_tags
          short_text := raw.short_text, main_tag_icon := icon
          user_id := user_id, raw_text := text, timestamp := env.now }

/-- `parse_expense` (expense_parser.py lines 123-207): the whole body is in
`try/except Exception`, so every failure is converted into the fallback
dictionary and the function always returns a plain value. -/
def parse_expense (env : ParserEnv) (text user_id : String) : ExpenseDict :=
  match parse_expense_body env text user_id with
  | Except.ok d => d
  | Except.error _ => expense_fallback env.now text user_id

/-! ## UsageQueryService alerts: usage_service.py, get_usage_alerts
lines 214-258 -/

/-- One alert object (type, severity, observed value, threshold; the human
message string is not modelled). -/
structure UsageAlert where
  atype : String
  severity : String
  value : ℚ
  threshold : ℚ
deriving DecidableEq

/-- The all-zero month returned by `.get(current_month, {})`-style lookups. -/
def zeroMonth : MonthStats := ⟨0, 0, 0, [], []⟩

/-- `UsageService.get_usage_alerts` (usage_service.py lines 214-258) over a
ledger snapshot and the current "YYYY-MM" key: the cost alert fires above $10
(warning below $25, critical otherwise), the request alert above 1000
(warning below 2500), the token-efficiency alert above 2000 average tokens.
`avg_tokens = total_tokens / total_requests` divides by the stored
`total_requests`, so a snapshot with zero requests raises ZeroDivisionError,
modelled as `Except.error`. -/
def get_usage_alerts (usage : Ledger) (current_month : String) :
    Except String (List UsageAlert) :=
  let monthly_data := (List.lookup current_month usage.monthly).getD zeroMonth
  let monthly_cost := monthly_data.cost_usd
  let a1 : List UsageAlert :=
    if 10 < monthly_cost then
      [⟨"high_monthly_cost", if monthly_cost < 25 then "warning" else "critical",
        monthly_cost, 10⟩]
    else []
  let monthly_requests := monthly_data.requests
  let a2 : List UsageAlert :=
    if 1000 < monthly_requests then
      [⟨"high_monthly_requests",
        if monthly_requests < 2500 then "warning" else "critical",
        (monthly_requests : ℚ), 1000⟩]
    else []
  if usage.total_requests = 0 then Except.error "ZeroDivisionError"
  else
    let avg : ℚ := (usage.total_tokens : ℚ) / (usage.total_requests : ℚ)
    let a3 : List UsageAlert :=
      if 2000 < avg then [⟨"high_token_usage", "info", avg, 2000⟩] else []
    Except.ok (a1 ++ a2 ++ a3)

/-! ## Derived quantities and concrete fixtures used by the theorems -/

/-- Sum of the `requests` counters over the buckets of a by_agent map. -/
def sumAgentRequests (m : List (String × Bucket)) : Nat :=
  (m.map (fun p => p.2.requests)).sum

/-- The current-month cost a ledger snapshot reports (the
`monthly_data.get("cost_usd", 0.0)` value `get_usage_alerts` reads). -/
def month_cost (usage : Ledger) (m : String) : ℚ :=
  ((List.lookup m usage.monthly).getD zeroMonth).cost_usd

/-- A parsed-expense dictionary with a given amount, for concrete scenarios. -/
def sampleDict (a : ℚ) : ExpenseDict :=
  { amount := a, currency := "EUR", area_tags := ["food"], context_tags := []
    short_text := "stuff", main_tag_icon := "tag", user_id := "u1"
    raw_text := "raw", timestamp := "2025-10-12T00:00:00Z" }

/-- The deadline scenario of the spec: three fragments that complete fast
with positive amounts plus one hanging fragment; the batch deadline elapses
after the three completions. -/
def hangFrags : List (String × FragOutcome) :=
  [("f1", FragOutcome.result (some (sampleDict 10))),
   ("f2", FragOutcome.result (some (sampleDict 15))),
   ("f3", FragOutcome.result (some (sampleDict 20))),
   ("hang", FragOutcome.result none)]

/-- A three-fragment batch: one success, one non-positive parse, one raising
unit of work. -/
def mixedFrags : List (String × FragOutcome) :=
  [("good", FragOutcome.result (some (sampleDict 12))),
   ("zero", FragOutcome.result (some (sampleDict 0))),
   ("boom", FragOutcome.exn "connection reset")]

/-- A tiktoken world in which `get_encoding` always raises. -/
def envNoEncoders : TokenEnv := ⟨fun _ => none⟩

/-- A metering environment whose Firestore write raises. -/
def envSetFails : MeterEnv := ⟨⟨fun _ => none⟩, false, true⟩

/-- A parser environment whose language-model delegation returns unparseable
output. -/
def envLLMFails : ParserEnv :=
  { user_currency := Except.ok (some "USD"), api_key := some "sk-test"
    llm_parsed := Except.error "malformed output"
    tag_icon := fun _ => Except.ok none, now := "2025-10-12T00:00:00Z" }

/-- A ledger snapshot with one request and a chosen current-month cost. -/
def ledgerAtCost (c : ℚ) : Ledger :=
  { total_requests := 1, total_tokens := 0, total_cost_usd := c
    by_agent := [("expense_parser", ⟨1, 0, c⟩)]
    by_model := [("gpt-4.1-nano", ⟨1, 0, c⟩)]
    monthly := [("2025-10", ⟨1, 0, c, [], []⟩)]
    recent_requests := [] }

/-! ## Theorems -/

/-- C5 counterexample: `calculate_cost` does not round.  One input token on an
unlisted model costs 1e-9 USD, which rounding to 6 decimal places would
collapse to 0; the source returns the unrounded value. -/
theorem calculate_cost_not_rounded_cex :
    calculate_cost 1 0 "unpriced-model" = 1 / 1000000000
  ∧ pyRound6 (calculate_cost 1 0 "unpriced-model") = 0
  ∧ calculate_cost 1 0 "unpriced-model"
      ≠ pyRound6 (calculate_cost 1 0 "unpriced-model") := by
  have hlook : List.lookup "unpriced-model" model_pricing = none := rfl
  have h1 : calculate_cost 1 0 "unpriced-model" = 1 / 1000000000 := by
    unfold calculate_cost
    rw [hlook]
    norm_num
  have hfl : ⌊(1 / 1000000000 : ℚ) * 1000000⌋ = 0 := by
    rw [Int.floor_eq_zero_iff]
    constructor <;> norm_num
  have h2 : pyRound6 (1 / 1000000000 : ℚ) = 0 := by
    unfold pyRound6 bankersRound
    rw [hfl]
    norm_num
  refine ⟨h1, by rw [h1]; exact h2, ?_⟩
  rw [h1, h2]
  norm_num

/-- C5 (amended): `calculate_cost` is the pure linear pricing formula
`input/1e6 * in_rate + output/1e6 * out_rate`, with the default rates
(0.001, 0.002) for unlisted models, returned WITHOUT the 6-decimal rounding
(that rounding is applied later, by `log_usage`, when the event is stored). -/
theorem calculate_cost_amended (i o : Nat) (model : String) :
    (List.lookup model model_pricing = none →
      calculate_cost i o model
        = (i : ℚ) / 1000000 * 0.001 + (o : ℚ) / 1000000 * 0.002)
  ∧ (∀ pin pout : ℚ, List.lookup model model_pricing = some (pin, pout) →
      calculate_cost i o model
        = (i : ℚ) / 1000000 * pin + (o : ℚ) / 1000000 * pout) := by
  constructor
  · intro h
    simp [calculate_cost, h]
  · intro pin pout h
    simp [calculate_cost, h]

/-- C5 witness: the amended pricing formula evaluated for one million input
tokens on gpt-4o gives exactly the listed input rate. -/
theorem calculate_cost_amended_witness :
    calculate_cost 1000000 0 "gpt-4o"
      = (1000000 : ℚ) / 1000000 * 2.50 + (0 : ℚ) / 1000000 * 10.00
  ∧ calculate_cost 1000000 0 "gpt-4o" = 2.5 := by
  have h := (calculate_cost_amended 1000000 0 "gpt-4o").2 2.50 10.00 rfl
  exact ⟨h, by rw [h]; norm_num⟩

/-- C6: `count_tokens` is a total function independent of the model name
(every model resolves to the same generic encoding), and on any counting
failure — the encoding being unavailable or the encoder raising — it falls
back to `len(text) // 4` (0 for empty text). -/
theorem count_tokens_total_fallback (env : TokenEnv) (text m1 m2 : String) :
    count_tokens env text m1 = count_tokens env text m2
  ∧ (get_encoder env m1 = none →
      count_tokens env text m1 = if text = "" then 0 else text.length / 4)
  ∧ (∀ enc, get_encoder env m1 = some enc → enc text = none →
      count_tokens env text m1 = if text = "" then 0 else text.length / 4) := by
  refine ⟨rfl, ?_, ?_⟩
  · intro h
    by_cases ht : text = "" <;> simp [count_tokens, ht, h]
  · intro enc h henc
    by_cases ht : text = "" <;> simp [count_tokens, ht, h, henc]

/-- C6 witness: with every encoding unavailable, an 8-character text counts
`8 // 4 = 2` tokens. -/
theorem count_tokens_total_fallback_witness :
    count_tokens envNoEncoders "abcdefgh" "gpt-4o" = 2 := by
  have h := (count_tokens_total_fallback envNoEncoders "abcdefgh" "gpt-4o" "other").2.1 rfl
  simpa using h

/-- C8: `detect_expense_count` always returns one of the two labels, with
`"single"` exactly when `re.findall` finds at most one money-pattern match
and `"multiple"` exactly when it finds two or more. -/
theorem detect_expense_count_classifies (text : String) :
    (detect_expense_count text = "single" ∨ detect_expense_count text = "multiple")
  ∧ (detect_expense_count text = "single" ↔ money_matches_count text ≤ 1)
  ∧ (detect_expense_count text = "multiple" ↔ 2 ≤ money_matches_count text) := by
  unfold detect_expense_count
  rcases Nat.lt_or_ge (money_matches_count text) 2 with hlt | hge
  · have hcond : money_matches_count text = 0 ∨ money_matches_count text ≤ 1 :=
      Or.inr (by omega)
    rw [if_pos hcond]
    exact ⟨Or.inl rfl, ⟨fun _ => by omega, fun _ => rfl⟩,
           fun hs => absurd hs (by decide), fun h2 => absurd h2 (by omega)⟩
  · have hcond : ¬(money_matches_count text = 0 ∨ money_matches_count text ≤ 1) := by
      omega
    rw [if_neg hcond]
    exact ⟨Or.inr rfl, ⟨fun hs => absurd hs (by decide), fun h1 => absurd h1 (by omega)⟩,
           fun _ => by omega, fun _ => rfl⟩

/-- C9: every failure inside `log_usage` — token counting, cost computation,
the Firestore read or the Firestore write — is caught by its catch-all
handler: the caller gets a plain return value and the stored document is left
exactly as it was. -/
theorem log_usage_absorbs_failures (env : MeterEnv) (stored : Option Ledger)
    (agent model input_text output_text timestamp month : String) :
    (∀ msg, log_usage_body env stored agent model input_text output_text timestamp month
        = Except.error msg →
      log_usage env stored agent model input_text output_text timestamp month = stored)
  ∧ (env.get_fails = true ∨ env.set_fails = true →
      log_usage env stored agent model input_text output_text timestamp month = stored) := by
  constructor
  · intro msg h
    unfold log_usage
    rw [h]
  · intro h
    unfold log_usage log_usage_body
    rcases h with h | h
    · simp [h]
    · cases hg : env.get_fails <;> simp [h, hg]

/-- C9 witness: with the Firestore write raising, `log_usage` returns and the
stored ledger is unchanged. -/
theorem log_usage_absorbs_failures_witness :
    log_usage envSetFails (some initLedger) "expense_parser" "gpt-4.1-nano"
      "dinner for two" "out" "2025-10-12T00:00:00Z" "2025-10" = some initLedger :=
  (log_usage_absorbs_failures envSetFails (some initLedger) "expense_parser"
    "gpt-4.1-nano" "dinner for two" "out" "2025-10-12T00:00:00Z" "2025-10").2
    (Or.inr rfl)

/-- C10: `parse_expense` never raises: on any internal failure — the user
document read raising, the missing API key, a model/parsing error, or the
validator rejecting a negative amount — it returns the well-formed fallback
record: amount 0, currency "EUR", empty tag lists, short_text
"generic purchase", icon "tag", the original input as raw_text, the caller's
user_id and the fresh UTC timestamp. -/
theorem parse_expense_fallback_on_failure (env : ParserEnv) (text user_id : String) :
    (∀ msg, parse_expense_body env text user_id = Except.error msg →
      parse_expense env text user_id = expense_fallback env.now text user_id)
  ∧ (((∃ m, env.user_currency = Except.error m) ∨ env.api_key = none
      ∨ (∃ m, env.llm_parsed = Except.error m)
      ∨ (∃ r, env.llm_parsed = Except.ok r ∧ r.amount < 0)) →
      parse_expense env text user_id = expense_fallback env.now text user_id)
  ∧ (expense_fallback env.now text user_id).amount = 0
  ∧ (expense_fallback env.now text user_id).currency = "EUR"
  ∧ (expense_fallback env.now text user_id).short_text = "generic purchase"
  ∧ (expense_fallback env.now text user_id).area_tags = []
  ∧ (expense_fallback env.now text user_id).context_tags = []
  ∧ (expense_fallback env.now text user_id).main_tag_icon = "tag"
  ∧ (expense_fallback env.now text user_id).raw_text = text
  ∧ (expense_fallback env.now text user_id).user_id = user_id
  ∧ (expense_fallback env.now text user_id).timestamp = env.now := by
  obtain ⟨uc, ak, lp, ti, now⟩ := env
  refine ⟨?_, ?_, rfl, rfl, rfl, rfl, rfl, rfl, rfl, rfl, rfl⟩
  · intro msg h
    unfold parse_expense
    rw [h]
  · intro h
    rcases h with ⟨m, hm⟩ | hk | ⟨m, hm⟩ | ⟨r, hr, hneg⟩
    · subst hm
      rfl
    · subst hk
      rcases uc with m | doc <;> rfl
    · subst hm
      rcases uc with m | doc
      · rfl
      · rcases ak with _ | k <;> rfl
    · rcases uc with m | doc
      · rfl
      · rcases ak with _ | k
        · rfl
        · subst hr
          simp only [parse_expense, parse_expense_body, Except.bind, bind]
          rw [if_pos hneg]

/-- C10 witness: with the delegation returning unparseable output, the parser
returns exactly the fallback record. -/
theorem parse_expense_fallback_on_failure_witness :
    parse_expense envLLMFails "ten euro for pizza" "u1"
      = expense_fallback "2025-10-12T00:00:00Z" "ten euro for pizza" "u1" :=
  (parse_expense_fallback_on_failure envLLMFails "ten euro for pizza" "u1").2.1
    (Or.inr (Or.inr (Or.inl ⟨"malformed output", rfl⟩)))

/-- C7 counterexample: at a current-month cost of exactly $25.00 the source
emits severity "critical" (`"warning" if monthly_cost < 25.0 else
"critical"`), not the "warning" the claim requires for costs at or below
$25. -/
theorem usage_alerts_critical_at_25_cex :
    get_usage_alerts (ledgerAtCost 25) "2025-10"
      = Except.ok [⟨"high_monthly_cost", "critical", 25, 10⟩]
  ∧ (25 : ℚ) ≤ 25 ∧ "critical" ≠ "warning" := by
  refine ⟨?_, le_refl _, by decide⟩
  have hl : List.lookup "2025-10" (ledgerAtCost 25).monthly
      = some ⟨1, 0, 25, [], []⟩ := rfl
  unfold get_usage_alerts
  rw [hl]
  norm_num [ledgerAtCost]

/-- C7 (amended): for every snapshot with at least one recorded request,
`get_usage_alerts` emits a `high_monthly_cost` alert exactly when the
current-month cost exceeds $10, with severity "warning" strictly below $25
and "critical" at or above $25 (a cost of exactly $25.00 is critical). -/
theorem usage_alerts_amended (usage : Ledger) (m : String)
    (h : 0 < usage.total_requests) :
    ∃ alerts, get_usage_alerts usage m = Except.ok alerts
  ∧ alerts.filter (fun a => a.atype == "high_monthly_cost")
      = (if 10 < month_cost usage m then
            [⟨"high_monthly_cost",
              if month_cost usage m < 25 then "warning" else "critical",
              month_cost usage m, 10⟩]
          else []) := by
  have h0 : ¬(usage.total_requests = 0) := by omega
  unfold get_usage_alerts
  rw [if_neg h0]
  refine ⟨_, rfl, ?_⟩
  unfold month_cost
  split_ifs <;>
    simp_all [List.filter_append, List.filter_cons, List.filter_nil]

/-- C7 witness: a snapshot with current-month cost $11 gets exactly one
`high_monthly_cost` warning. -/
theorem usage_alerts_amended_witness :
    ∃ alerts, get_usage_alerts (ledgerAtCost 11) "2025-10" = Except.ok alerts
  ∧ alerts.filter (fun a => a.atype == "high_monthly_cost")
      = [⟨"high_monthly_cost", "warning", 11, 10⟩] := by
  obtain ⟨alerts, h1, h2⟩ :=
    usage_alerts_amended (ledgerAtCost 11) "2025-10" (by norm_num [ledgerAtCost])
  refine ⟨alerts, h1, ?_⟩
  rw [h2]
  have hc : month_cost (ledgerAtCost 11) "2025-10" = 11 := rfl
  rw [hc]
  norm_num

/-- C1 counterexample: in the deadline scenario (three fast fragments with
positive amounts, one hanging fragment, deadline elapsing after the three
completions) the orchestrator does NOT return the three completed successes:
the timeout exception aborts the collection loop and the handler returns an
empty success list with the timeout error. -/
theorem timeout_batch_discards_successes_cex :
    (parse_multiple_expenses hangFrags (some 3) "batch").expenses = []
  ∧ (parse_multiple_expenses hangFrags (some 3) "batch").error
      = "Timeout while processing expenses"
  ∧ ¬((parse_multiple_expenses hangFrags (some 3) "batch").expenses.length = 3) := by
  have h : parse_multiple_expenses hangFrags (some 3) "batch"
      = ⟨[], 0, "batch", "Timeout while processing expenses"⟩ := rfl
  rw [h]
  exact ⟨rfl, rfl, by decide⟩

/-- C1 (amended): whenever the batch deadline elapses before all of a
multi-fragment batch's units complete, `parse_multiple_expenses` returns a
result with ZERO successes — the successes collected before the deadline are
discarded — and the explicit timeout error for the batch. -/
theorem timeout_batch_returns_empty (frags : List (String × FragOutcome))
    (k : Nat) (text : String) (h2 : 2 ≤ frags.length) (hk : k < frags.length) :
    parse_multiple_expenses frags (some k) text
      = ⟨[], 0, text, "Timeout while processing expenses"⟩ := by
  cases frags with
  | nil => simp at h2
  | cons a tail =>
    cases tail with
    | nil => simp at h2
    | cons b rest =>
      simp only [parse_multiple_expenses]
      rw [if_pos hk]

/-- C1 witness: the deadline scenario instantiated — the batch returns the
timeout result. -/
theorem timeout_batch_returns_empty_witness :
    parse_multiple_expenses hangFrags (some 3) "three fast one hanging"
      = ⟨[], 0, "three fast one hanging", "Timeout while processing expenses"⟩ :=
  timeout_batch_returns_empty hangFrags 3 "three fast one hanging"
    (by decide) (by decide)

/-- Dropping a prefix by a predicate never lengthens a list. -/
theorem length_dropWhile_le_self {α} (p : α → Bool) (l : List α) :
    (l.dropWhile p).length ≤ l.length := by
  induction l with
  | nil => simp
  | cons a l ih =>
    by_cases h : p a <;> simp [List.dropWhile, h] <;> omega

/-- A prefix of a left-trimmed list is itself left-trimmed. -/
theorem prefix_dropWhile_self {α} (p : α → Bool) (x t : List α)
    (h : List.dropWhile p (x ++ t) = x ++ t) : List.dropWhile p x = x := by
  cases x with
  | nil => simp
  | cons a x1 =>
    have hpa : p a = false := by
      by_contra hp
      rw [Bool.not_eq_false] at hp
      rw [List.cons_append, List.dropWhile_cons_of_pos hp] at h
      have hlen := length_dropWhile_le_self p (x1 ++ t)
      rw [h] at hlen
      simp at hlen
    simp [List.dropWhile, hpa]

/-- Python `strip` is idempotent. -/
theorem pyStrip_idem (l : List Char) : pyStrip (pyStrip l) = pyStrip l := by
  have heq : ∀ z : List Char, pyStrip z = List.rdropWhile pyws (z.dropWhile pyws) :=
    fun z => rfl
  rw [heq, heq]
  have hy : List.dropWhile pyws (List.dropWhile pyws l) = List.dropWhile pyws l :=
    List.dropWhile_idempotent pyws _
  obtain ⟨t, ht⟩ := List.rdropWhile_prefix pyws (List.dropWhile pyws l)
  have hx : List.dropWhile pyws (List.rdropWhile pyws (List.dropWhile pyws l))
      = List.rdropWhile pyws (List.dropWhile pyws l) := by
    apply prefix_dropWhile_self pyws _ t
    rw [ht]
    exact hy
  rw [hx]
  exact List.rdropWhile_idempotent pyws _

/-- C3 counterexample: the fallback split of "," yields the empty list — the
claimed restore-original-text step does not exist in the source, so the
returned fragment list does NOT always have length at least 1. -/
theorem split_fallback_empty_cex :
    split_multi_expense_fallback "," = []
  ∧ ¬(1 ≤ (split_multi_expense_fallback ",").length) := by
  have h : split_multi_expense_fallback "," = [] := rfl
  refine ⟨h, ?_⟩
  rw [h]
  decide

/-- C3 (amended): the fallback deterministically splits on the literal
separators "," and " and ", trims whitespace and drops empty segments — every
returned fragment is nonempty and fully trimmed, and the three-expense example
splits exactly as specified — but when no segment survives the result is the
empty list (the original text is NOT restored as a single fragment). -/
theorem split_fallback_amended :
    split_multi_expense_fallback "$10 for coffee, $15 for lunch, $20 for dinner"
      = ["$10 for coffee", "$15 for lunch", "$20 for dinner"]
  ∧ (∀ text s, s ∈ split_multi_expense_fallback text →
      s ≠ "" ∧ pyStripString s = s) := by
  constructor
  · rfl
  · intro text s hs
    unfold split_multi_expense_fallback at hs
    rw [List.mem_map] at hs
    obtain ⟨l, hl, rfl⟩ := hs
    rw [List.mem_filter] at hl
    obtain ⟨hmem, hne⟩ := hl
    rw [List.mem_map] at hmem
    obtain ⟨l0, _, rfl⟩ := hmem
    have hne2 : pyStrip l0 ≠ [] := by simpa using hne
    constructor
    · intro h
      apply hne2
      have hdata := congrArg String.data h
      simpa using hdata
    · unfold pyStripString
      rw [show (String.mk (pyStrip l0)).toList = pyStrip l0 from rfl]
      rw [pyStrip_idem]

/-- C3 witness: a fragment produced by the fallback on "a, b" is nonempty and
already trimmed. -/
theorem split_fallback_amended_witness :
    ("a" : String) ≠ "" ∧ pyStripString "a" = "a" :=
  split_fallback_amended.2 "a, b" "a"
    (by rw [show split_multi_expense_fallback "a, b" = ["a", "b"] from rfl]; simp)

/-- The collection loop partitions the fragments: successes plus errors cover
the batch. -/
theorem collectResults_length (fs : List (String × FragOutcome)) :
    (collectResults fs).1.length + (collectResults fs).2.length = fs.length := by
  induction fs with
  | nil => rfl
  | cons p fs ih =>
    obtain ⟨t, o⟩ := p
    rcases o with r | m
    · rcases r with _ | r
      · simp only [collectResults]
        simp
        omega
      · by_cases h : 0 < r.amount <;> simp only [collectResults] <;> simp [h] <;> omega
    · simp only [collectResults]
      simp
      omega

/-- The number of successes the collection loop keeps equals the number of
fragments whose outcome is a truthy result with a strictly positive amount. -/
theorem collectResults_count (fs : List (String × FragOutcome)) :
    (collectResults fs).1.length
      = (fs.filter (fun p =>
          match p.2 with
          | FragOutcome.result (some r) => decide (0 < r.amount)
          | _ => false)).length := by
  induction fs with
  | nil => rfl
  | cons p fs ih =>
    obtain ⟨t, o⟩ := p
    rcases o with r | m
    · rcases r with _ | r
      · simpa [collectResults, List.filter] using ih
      · by_cases h : 0 < r.amount <;>
          simp [collectResults, List.filter, h, ih]
    · simpa [collectResults, List.filter] using ih

/-- Every success kept by the collection loop has a strictly positive amount. -/
theorem collectResults_pos (fs : List (String × FragOutcome)) :
    ∀ r ∈ (collectResults fs).1, 0 < r.amount := by
  induction fs with
  | nil => intro r hr; simp [collectResults] at hr
  | cons p fs ih =>
    obtain ⟨t, o⟩ := p
    intro r hr
    rcases o with ro | m
    · rcases ro with _ | r0
      · simp only [collectResults] at hr
        exact ih r hr
      · by_cases h : 0 < r0.amount
        · simp only [collectResults] at hr
          rw [if_pos h] at hr
          rcases List.mem_cons.mp hr with rfl | hr2
          · exact h
          · exact ih r hr2
        · simp only [collectResults] at hr
          rw [if_neg h] at hr
          exact ih r hr
    · simp only [collectResults] at hr
      exact ih r hr

/-- Every error string recorded by the collection loop names the fragment it
came from. -/
theorem collectResults_err_names (fs : List (String × FragOutcome)) :
    ∀ s ∈ (collectResults fs).2, ∃ p ∈ fs,
      s = "Failed to parse: " ++ p.1
      ∨ ∃ m, s = "Error parsing \x27" ++ p.1 ++ "\x27: " ++ m := by
  induction fs with
  | nil => intro s hs; simp [collectResults] at hs
  | cons p fs ih =>
    obtain ⟨t, o⟩ := p
    intro s hs
    rcases o with ro | m
    · rcases ro with _ | r0
      · simp only [collectResults] at hs
        rcases List.mem_cons.mp hs with rfl | hs2
        · exact ⟨(t, FragOutcome.result none), by simp, Or.inl rfl⟩
        · obtain ⟨q, hq, hq2⟩ := ih s hs2
          exact ⟨q, List.mem_cons_of_mem _ hq, hq2⟩
      · by_cases h : 0 < r0.amount
        · simp only [collectResults] at hs
          rw [if_pos h] at hs
          obtain ⟨q, hq, hq2⟩ := ih s hs
          exact ⟨q, List.mem_cons_of_mem _ hq, hq2⟩
        · simp only [collectResults] at hs
          rw [if_neg h] at hs
          rcases List.mem_cons.mp hs with rfl | hs2
          · exact ⟨(t, FragOutcome.result (some r0)), by simp, Or.inl rfl⟩
          · obtain ⟨q, hq, hq2⟩ := ih s hs2
            exact ⟨q, List.mem_cons_of_mem _ hq, hq2⟩
    · simp only [collectResults] at hs
      rcases List.mem_cons.mp hs with rfl | hs2
      · exact ⟨(t, FragOutcome.exn m), by simp, Or.inr ⟨m, rfl⟩⟩
      · obtain ⟨q, hq, hq2⟩ := ih s hs2
        exact ⟨q, List.mem_cons_of_mem _ hq, hq2⟩

/-- C4 counterexample: on the direct single-fragment path the positive-amount
check is skipped (`if result_dict:` only tests truthiness), so a fragment
producing a non-error result with amount 0 is returned as a SUCCESS — where
the claim requires 0 successes and 1 error entry. -/
theorem single_fragment_skips_amount_check_cex :
    (parse_multiple_expenses
        [("zero", FragOutcome.result (some (sampleDict 0)))] none "zero").expenses
      = [sampleDict 0]
  ∧ (parse_multiple_expenses
        [("zero", FragOutcome.result (some (sampleDict 0)))] none "zero").total_count
      = 1
  ∧ ¬(0 < (sampleDict 0).amount)
  ∧ (parse_multiple_expenses
        [("zero", FragOutcome.result (some (sampleDict 0)))] none "zero").error
      = "" := by
  refine ⟨rfl, rfl, ?_, rfl⟩
  norm_num [sampleDict]

/-- C4 (amended): for every multi-fragment batch (N ≥ 2) with no deadline
event, the returned batch has exactly K successes — the fragments whose
outcome is a non-error result with strictly positive amount — and N − K error
entries each naming its fragment; the reported count equals the success-list
length and the error field is the ";"-joined error list.  On the direct
single-fragment path (N = 1) this fails: a truthy result is accepted without
the positive-amount check. -/
theorem parse_batch_success_error_partition
    (frags : List (String × FragOutcome)) (text : String) (h2 : 2 ≤ frags.length) :
    (parse_multiple_expenses frags none text).expenses = (collectResults frags).1
  ∧ (parse_multiple_expenses frags none text).total_count
      = (parse_multiple_expenses frags none text).expenses.length
  ∧ (parse_multiple_expenses frags none text).expenses.length
      = (frags.filter (fun p =>
          match p.2 with
          | FragOutcome.result (some r) => decide (0 < r.amount)
          | _ => false)).length
  ∧ (∀ r ∈ (parse_multiple_expenses frags none text).expenses, 0 < r.amount)
  ∧ (parse_multiple_expenses frags none text).expenses.length
      + (collectResults frags).2.length = frags.length
  ∧ (parse_multiple_expenses frags none text).error
      = String.intercalate "; " (collectResults frags).2
  ∧ (∀ s ∈ (collectResults frags).2, ∃ p ∈ frags,
      s = "Failed to parse: " ++ p.1
      ∨ ∃ m, s = "Error parsing \x27" ++ p.1 ++ "\x27: " ++ m) := by
  cases frags with
  | nil => simp at h2
  | cons a tail =>
    cases tail with
    | nil => simp at h2
    | cons b rest =>
      have hred : parse_multiple_expenses (a :: b :: rest) none text
          = ⟨(collectResults (a :: b :: rest)).1,
             (collectResults (a :: b :: rest)).1.length, text,
             String.intercalate "; " (collectResults (a :: b :: rest)).2⟩ := rfl
      rw [hred]
      exact ⟨rfl, rfl, collectResults_count _, collectResults_pos _,
             collectResults_length _, rfl, collectResults_err_names _⟩

/-- C4 witness: a three-fragment batch with one positive success, one
zero-amount parse and one raising unit yields 1 success and 2 errors. -/
theorem parse_batch_success_error_partition_witness :
    (parse_multiple_expenses mixedFrags none "w").total_count
      = (parse_multiple_expenses mixedFrags none "w").expenses.length
  ∧ (parse_multiple_expenses mixedFrags none "w").expenses.length = 1
  ∧ (collectResults mixedFrags).2.length = 2 := by
  have h := parse_batch_success_error_partition mixedFrags "w" (by decide)
  have e12 : (0 : ℚ) < (sampleDict 12).amount := by norm_num [sampleDict]
  have e0 : ¬((0 : ℚ) < (sampleDict 0).amount) := by norm_num [sampleDict]
  refine ⟨h.1 ▸ h.2.1, ?_, ?_⟩
  · rw [h.1]
    simp [mixedFrags, collectResults, e12, e0]
  · simp [mixedFrags, collectResults, e12, e0]

/-- One merge adds exactly one request to exactly one by_agent bucket
(creating it if absent). -/
theorem bumpAssoc_sumRequests (m : List (String × Bucket)) (k : String)
    (tok : Nat) (c : ℚ) :
    sumAgentRequests (bumpAssoc m k tok c) = sumAgentRequests m + 1 := by
  induction m with
  | nil => simp [bumpAssoc, sumAgentRequests]
  | cons hd tl ih =>
    obtain ⟨k0, b⟩ := hd
    by_cases h : k0 = k
    · simp [bumpAssoc, h, sumAgentRequests]
      omega
    · simp [bumpAssoc, h, sumAgentRequests] at ih ⊢
      omega

/-- Each merge increments `total_requests` by one. -/
theorem foldl_apply_event_requests (es : List UEvent) (L : Ledger) :
    (es.foldl apply_event L).total_requests = L.total_requests + es.length := by
  induction es generalizing L with
  | nil => simp
  | cons e es ih =>
    rw [List.foldl_cons, ih]
    show (apply_event L e).total_requests + es.length = _
    simp [apply_event, log_usage_merge]
    omega

/-- Each merge adds the event's input+output tokens to `total_tokens`. -/
theorem foldl_apply_event_tokens (es : List UEvent) (L : Ledger) :
    (es.foldl apply_event L).total_tokens
      = L.total_tokens + (es.map (fun e => e.input_tokens + e.output_tokens)).sum := by
  induction es generalizing L with
  | nil => simp
  | cons e es ih =>
    rw [List.foldl_cons, ih]
    show (apply_event L e).total_tokens + _ = _
    simp [apply_event, log_usage_merge]
    omega

/-- Each merge adds exactly one request across the by_agent buckets. -/
theorem foldl_apply_event_sumAgent (es : List UEvent) (L : Ledger) :
    sumAgentRequests (es.foldl apply_event L).by_agent
      = sumAgentRequests L.by_agent + es.length := by
  induction es generalizing L with
  | nil => simp
  | cons e es ih =>
    rw [List.foldl_cons, ih]
    rw [show (apply_event L e).by_agent
        = bumpAssoc L.by_agent e.agent (e.input_tokens + e.output_tokens) e.cost_usd
      from rfl]
    rw [bumpAssoc_sumRequests]
    simp only [List.length_cons]
    omega

/-- The recent-requests field evolves by the append-and-truncate step alone. -/
theorem foldl_apply_event_recent (es : List UEvent) (L : Ledger) :
    (es.foldl apply_event L).recent_requests
      = es.foldl capRecent L.recent_requests := by
  induction es generalizing L with
  | nil => rfl
  | cons e es ih =>
    rw [List.foldl_cons, List.foldl_cons, ih]
    rfl

/-- One append-and-truncate step keeps exactly the last 100 entries. -/
theorem capRecent_eq (r : List UEvent) (e : UEvent) :
    capRecent r e = (r ++ [e]).drop ((r ++ [e]).length - 100) := by
  unfold capRecent
  by_cases h : 100 < (r ++ [e]).length
  · rw [if_pos h]
  · rw [if_neg h]
    have h0 : (r ++ [e]).length - 100 = 0 := by
      simp only [not_lt] at h
      omega
    rw [h0, List.drop_zero]

/-- The append-and-truncate step preserves the 100-entry cap. -/
theorem capRecent_le (r : List UEvent) (e : UEvent) (h : r.length ≤ 100) :
    (capRecent r e).length ≤ 100 := by
  rw [capRecent_eq, List.length_drop]
  simp
  omega

/-- Dropping all but the last `n` elements of an append ignores the left part
when the right part is long enough. -/
theorem drop_sub_append {α} (A B : List α) (n : Nat) (h : n ≤ B.length) :
    (A ++ B).drop ((A ++ B).length - n) = B.drop (B.length - n) := by
  rw [List.length_append]
  rw [show A.length + B.length - n = A.length + (B.length - n) by omega]
  exact List.drop_append _

/-- Keeping the last `n` elements, appending, and keeping the last `n` again
is the same as keeping the last `n` of the whole append. -/
theorem drop_sub_absorb {α} (xs ys : List α) (n : Nat) :
    (xs.drop (xs.length - n) ++ ys).drop ((xs.drop (xs.length - n) ++ ys).length - n)
      = (xs ++ ys).drop ((xs ++ ys).length - n) := by
  by_cases h : xs.length ≤ n
  · rw [Nat.sub_eq_zero_of_le h, List.drop_zero]
  · have hlen : (xs.drop (xs.length - n)).length = n := by
      rw [List.length_drop]
      omega
    have hB : n ≤ (xs.drop (xs.length - n) ++ ys).length := by
      rw [List.length_append, hlen]
      omega
    conv_rhs => rw [← List.take_append_drop (xs.length - n) xs, List.append_assoc]
    rw [drop_sub_append _ _ _ hB]

/-- Folding the append-and-truncate step from a capped start keeps exactly the
last 100 entries of everything ever appended. -/
theorem foldl_capRecent_eq (es : List UEvent) (r : List UEvent)
    (h : r.length ≤ 100) :
    es.foldl capRecent r = (r ++ es).drop ((r ++ es).length - 100) := by
  induction es generalizing r with
  | nil =>
    have h0 : (r ++ ([] : List UEvent)).length - 100 = 0 := by
      simp
      omega
    rw [h0, List.drop_zero, List.append_nil]
    rfl
  | cons e es ih =>
    rw [List.foldl_cons, ih (capRecent r e) (capRecent_le r e h), capRecent_eq]
    rw [drop_sub_absorb (r ++ [e]) es 100]
    simp

/-- C2: merging events e1..en into a freshly initialized user ledger with the
aggregator's read-modify-write gives `total_requests = n`, `total_tokens` the
sum of the events' token counts, by_agent request counts summing to
`total_requests`, and `recent_requests` holding exactly the `min(n, 100)` most
recent events in merge order (so merging 150 events leaves the last 100). -/
theorem ledger_merge_invariants (events : List UEvent) :
    (events.foldl apply_event initLedger).total_requests = events.length
  ∧ (events.foldl apply_event initLedger).total_tokens
      = (events.map (fun e => e.input_tokens + e.output_tokens)).sum
  ∧ sumAgentRequests (events.foldl apply_event initLedger).by_agent
      = (events.foldl apply_event initLedger).total_requests
  ∧ (events.foldl apply_event initLedger).recent_requests
      = events.drop (events.length - 100)
  ∧ (events.foldl apply_event initLedger).recent_requests.length
      = min events.length 100 := by
  have h1 := foldl_apply_event_requests events initLedger
  have h3 := foldl_apply_event_sumAgent events initLedger
  have h4 : (events.foldl apply_event initLedger).recent_requests
      = events.drop (events.length - 100) := by
    rw [foldl_apply_event_recent]
    rw [show initLedger.recent_requests = [] from rfl]
    rw [foldl_capRecent_eq events [] (by simp)]
    simp
  refine ⟨by simpa [initLedger] using h1,
          by simpa [initLedger] using foldl_apply_event_tokens events initLedger,
          ?_, h4, ?_⟩
  · rw [h3, h1]
    simp [sumAgentRequests, initLedger]
  · rw [h4, List.length_drop]
    omega

end MoneyManager
